import Mathlib

/-!
Verification development for the DexTrader batch trade execution engine
(`trade_execute_service`).  The definitions below are a shallow embedding of
the TypeScript sources: `utils.ts` (timestamping, journal writing, wallet-key
map, exponential backoff), `trade.ts` (the current orchestrator `main`, the
per-trade pipeline and retry loop), `googleSecretManager.ts`, and the CSV
loader.  External effects (file system, network, clock) are passed in as
explicit parameters; JavaScript numbers on the decimal-string paths are
modelled with exact rationals.
-/

set_option maxRecDepth 8000

deriving instance DecidableEq for Except

/-! ## JavaScript string helpers -/

/-- The whitespace characters relevant to the repository's CSV data, as
removed by `String.prototype.trim`. -/
def isJsSpace (c : Char) : Bool :=
  c = ' ' || c = '\t' || c = '\n' || c = '\r'

/-- Model of `String.prototype.trim` on the character class above. -/
def jsTrimList (l : List Char) : List Char :=
  ((l.dropWhile isJsSpace).reverse.dropWhile isJsSpace).reverse

/-- Model of `String.prototype.trim`. -/
def jsTrim (s : String) : String :=
  ⟨jsTrimList s.data⟩

/-- Model of `value.replace(/[\r\n]/g, '')`: drop every CR and LF. -/
def stripCRLF (s : String) : String :=
  ⟨s.data.filter (fun c => !(c = '\r' || c = '\n'))⟩

/-- Model of `String.prototype.split(sep)` for a one-character separator:
`"".split(',')` is `[""]`, `",".split(',')` is `["", ""]`. -/
def splitOnChar (sep : Char) : List Char → List (List Char)
  | [] => [[]]
  | c :: cs =>
    let r := splitOnChar sep cs
    if c = sep then [] :: r
    else
      match r with
      | [] => [[c]]
      | h :: t => (c :: h) :: t

/-- `String`-level wrapper for `splitOnChar`. -/
def jsSplit (sep : Char) (s : String) : List String :=
  (splitOnChar sep s.data).map (fun l => ⟨l⟩)

/-- Does the first character list start with the second?  (Char-list model of
`String.prototype.startsWith`.) -/
def listStartsWith : List Char → List Char → Bool
  | _, [] => true
  | [], _ :: _ => false
  | c :: cs, d :: ds => c = d && listStartsWith cs ds

/-- Model of `String.prototype.startsWith`. -/
def jsStartsWith (s p : String) : Bool :=
  listStartsWith s.data p.data

/-- Code-unit lexicographic strict order on character lists — the order the
default `Array.prototype.sort()` comparator uses on these ASCII filenames. -/
def lexLt : List Char → List Char → Bool
  | [], [] => false
  | [], _ :: _ => true
  | _ :: _, [] => false
  | c :: cs, d :: ds =>
    if c < d then true
    else if d < c then false
    else lexLt cs ds

/-- The reflexive closure of `lexLt`, as `¬ b < a`. -/
def jsLe (a b : String) : Bool :=
  !lexLt b.data a.data

/-- Insert into a `jsLe`-sorted list, before the first not-smaller element. -/
def orderedInsertJs (a : String) : List String → List String
  | [] => [a]
  | b :: l => if jsLe a b then a :: b :: l else b :: orderedInsertJs a l

/-- Model of `Array.prototype.sort()` on string arrays (a stable sort under
the default lexicographic comparator; stable sorts of a list agree). -/
def jsSort : List String → List String
  | [] => []
  | a :: l => orderedInsertJs a (jsSort l)

/-- `s || d` for JavaScript strings: the empty string is falsy. -/
def jsOrStr (s d : String) : String :=
  if s = "" then d else s

/-- A JavaScript falsiness test for an optional string value
(`undefined` and `''` are falsy). -/
def jsFalsy (o : Option String) : Bool :=
  match o with
  | none => true
  | some s => s = ""

/-! ## Decimal parsing

`parseFloat` / `parseInt` as they are used on the repository's data contract:
plain decimal numerals (`"1.5"`, `"0.5"`, `"5"`).  Nonconforming strings map
to `none`, the analogue of the `NaN` such inputs produce in JavaScript
(`NaN` then flows through `Math.floor` and the quote URL without branching,
exactly as `none` flows through the embedding).  Values are exact rationals;
the claims below only exercise inputs on which IEEE doubles are exact. -/

/-- Parse a nonempty all-digit character list to a natural number. -/
def parseDigits (l : List Char) : Option Nat :=
  if l = [] then none
  else if l.all (·.isDigit) then
    some (l.foldl (fun n c => n * 10 + (c.toNat - 48)) 0)
  else none

/-- Model of `parseFloat` on canonical decimal numerals
(`digits` or `digits.digits`). -/
def parseDecimal (s : String) : Option ℚ :=
  match splitOnChar '.' s.data with
  | [intPart] => (parseDigits intPart).map (fun n => (n : ℚ))
  | [intPart, fracPart] =>
    match parseDigits intPart, parseDigits fracPart with
    | some a, some b => some ((a : ℚ) + (b : ℚ) / (10 : ℚ) ^ fracPart.length)
    | _, _ => none
  | _ => none

/-- Model of `parseInt(s, 10)` on plain digit strings. -/
def parseIntJS (s : String) : Option Nat :=
  parseDigits s.data

/-! ## Trade records and the loader (`trade.ts` module scope)

`trade.ts` maps each parsed CSV row to an object with exactly the ten named
columns, each passed through `cleanValue`; the mutable outcome fields
`transaction_id` and `status` are absent until processing sets them. -/

structure TradeInfo where
  wallet_address : String
  coin_amount : String
  slippage_in_pct : String
  from_token_address : String
  to_token_address : String
  wallet_alias : String := ""
  from_balance_before_execute : String := ""
  to_balance_before_execute : String := ""
  pct_of_balance : String := ""
  delay_seconds : String := ""
  transaction_id : Option String := none
  status : Option String := none
deriving DecidableEq

/-- `cleanValue(value)`: strings lose CR/LF and surrounding whitespace;
`undefined` becomes `''`. -/
def cleanValue (v : Option String) : String :=
  match v with
  | some s => jsTrim (stripCRLF s)
  | none => ""

/-- Dynamic field access `trade[header] || ''` on a trade record:
unknown headers and unset outcome fields read as `''`. -/
def getField (t : TradeInfo) (h : String) : String :=
  if h = "wallet_address" then t.wallet_address
  else if h = "coin_amount" then t.coin_amount
  else if h = "slippage_in_pct" then t.slippage_in_pct
  else if h = "from_token_address" then t.from_token_address
  else if h = "to_token_address" then t.to_token_address
  else if h = "wallet_alias" then t.wallet_alias
  else if h = "from_balance_before_execute" then t.from_balance_before_execute
  else if h = "to_balance_before_execute" then t.to_balance_before_execute
  else if h = "pct_of_balance" then t.pct_of_balance
  else if h = "delay_seconds" then t.delay_seconds
  else if h = "transaction_id" then t.transaction_id.getD ""
  else if h = "status" then t.status.getD ""
  else ""

/-- Lookup of a named column in a parsed CSV row (`csv-parse` with
`columns: true` keys each row by the header names). -/
def rawLookup (headers : List String) (values : List String) (k : String) :
    Option String :=
  (headers.zip values).lookup k

/-- The row-to-record mapping of `trade.ts`: every named column is read from
the raw row and passed through `cleanValue`; no validation is performed. -/
def toTradeInfo (headers : List String) (values : List String) : TradeInfo :=
  { wallet_address := cleanValue (rawLookup headers values "wallet_address")
    coin_amount := cleanValue (rawLookup headers values "coin_amount")
    slippage_in_pct := cleanValue (rawLookup headers values "slippage_in_pct")
    from_token_address := cleanValue (rawLookup headers values "from_token_address")
    to_token_address := cleanValue (rawLookup headers values "to_token_address")
    wallet_alias := cleanValue (rawLookup headers values "wallet_alias")
    from_balance_before_execute :=
      cleanValue (rawLookup headers values "from_balance_before_execute")
    to_balance_before_execute :=
      cleanValue (rawLookup headers values "to_balance_before_execute")
    pct_of_balance := cleanValue (rawLookup headers values "pct_of_balance")
    delay_seconds := cleanValue (rawLookup headers values "delay_seconds") }

/-- `csv-parse(tradeData, {columns: true, skip_empty_lines: true, trim: true})`
followed by the `.map` to `TradeInfo`: split on newlines, skip empty lines,
take the first line as headers (trimmed), pair each later line's
comma-separated values with the headers. -/
def loadTradeInfoList (content : String) : List TradeInfo :=
  match (jsSplit '\n' content).filter (fun l => l ≠ "") with
  | [] => []
  | headerLine :: dataLines =>
    let headers := (jsSplit ',' headerLine).map jsTrim
    dataLines.map (fun line =>
      toTradeInfo headers ((jsSplit ',' line).map jsTrim))

/-- The module-scope `headers` of `trade.ts`:
`tradeData.split('\n')[0].split(',').map(h => h.trim())`. -/
def headersOf (content : String) : List String :=
  match jsSplit '\n' content with
  | [] => []
  | first :: _ => (jsSplit ',' first).map jsTrim

/-! ## Timestamps and the result journal (`utils.ts`) -/

/-- `path.basename`: the last `/`-separated component. -/
def basenameOf (p : String) : String :=
  match (jsSplit '/' p).getLast? with
  | some b => b
  | none => p

/-- Does the character list begin with eight digits, an underscore and six
digits (the fixed-length pattern of the timestamp regex in `getTimestamp`)? -/
def tsPatternAt (l : List Char) : Bool :=
  decide ((l.take 8).length = 8) && (l.take 8).all (·.isDigit) &&
    (match l.drop 8 with
     | '_' :: r => decide ((r.take 6).length = 6) && (r.take 6).all (·.isDigit)
     | _ => false)

/-- First match of the regex `/(\d{8}_\d{6})/`, scanning left to right. -/
def findTs : List Char → Option String
  | [] => none
  | c :: cs =>
    if tsPatternAt (c :: cs) then some ⟨(c :: cs).take 15⟩
    else findTs cs

/-- `getTimestamp(useConfirmationTime, confirmationPath)` from `utils.ts`.
The fallback branch formats the current Los Angeles time; the clock and its
formatting are modelled by the opaque `nowFormatted` parameter. -/
def getTimestamp (useConfirmationTime : Bool) (confirmationPath : Option String)
    (nowFormatted : String) : String :=
  match useConfirmationTime, confirmationPath with
  | true, some p =>
    (match findTs (basenameOf p).data with
     | some m => m
     | none => nowFormatted)
  | _, _ => nowFormatted

/-- The header dedup in `writeTradeResults`:
`arr.filter((h, i, arr) => arr.indexOf(h) === i)` keeps the first occurrence
of each header, in order. -/
def dedupFirstAux (seen : List String) : List String → List String
  | [] => []
  | h :: t =>
    if h ∈ seen then dedupFirstAux seen t
    else h :: dedupFirstAux (h :: seen) t

/-- See `dedupFirstAux`: keep the first occurrence of each element. -/
def dedupFirst (l : List String) : List String :=
  dedupFirstAux [] l

/-- `[...headers, 'transaction_id', 'status']` deduplicated. -/
def updatedHeaders (headers : List String) : List String :=
  dedupFirst (headers ++ ["transaction_id", "status"])

/-- One data row of the results CSV:
`updatedHeaders.map(header => trade[header] || '')`. -/
def resultRow (hs : List String) (t : TradeInfo) : List String :=
  hs.map (getField t)

/-- All data rows written by `writeTradeResults` for the given batch. -/
def resultRows (headers : List String) (trades : List TradeInfo) :
    List (List String) :=
  trades.map (resultRow (updatedHeaders headers))

/-- The output path computed by `writeTradeResults`:
`path.join(resultsDir, 'trade_results_' + (timestamp || getTimestamp()) + '.csv')`.
The callers in `trade.ts` omit the `timestamp` argument. -/
def resultsPathOf (resultsDir : String) (timestampArg : Option String)
    (nowFormatted : String) : String :=
  let ts :=
    match timestampArg with
    | some t => if t = "" then getTimestamp true none nowFormatted else t
    | none => getTimestamp true none nowFormatted
  resultsDir ++ "/trade_results_" ++ ts ++ ".csv"

/-- The cell of a named column in a row, given the header list. -/
def columnValue (hs row : List String) (name : String) : Option String :=
  match hs, row with
  | h :: hs', v :: row' =>
    if h = name then some v else columnValue hs' row' name
  | _, _ => none

/-! ## Confirmation-sheet selection and startup (`utils.ts`, `trade.ts`) -/

/-- The fixed filename marker of confirmation sheets. -/
def confSheetMarker : String := "trade_confirmation_sheet_"

/-- `getLatestTradeConfirmation`: filter directory entries on the marker,
`sort()` (lexicographically ascending), `reverse()`, take the first.
Returns the selected filename (the source joins it with the directory). -/
def getLatestTradeConfirmation (files : List String) : Option String :=
  (jsSort (files.filter (fun f => jsStartsWith f confSheetMarker))).reverse.head?

/-- Startup of `trade.ts`: select the latest sheet, read it, throw
`'No trade data found'` when nothing was selected or the file content is
falsy (the empty string), else compute module-scope `headers` and
`tradeInfoList`. -/
def startupLoad (files : List String) (readFile : String → String) :
    Except String (List String × List TradeInfo) :=
  match getLatestTradeConfirmation files with
  | none => .error "No trade data found"
  | some f =>
    let tradeData := readFile f
    if tradeData = "" then .error "No trade data found"
    else .ok (headersOf tradeData, loadTradeInfoList tradeData)

/-! ## Credential resolution (`googleSecretManager.ts`, `utils.ts`) -/

/-- The environment variables `validateEnvironment` requires. -/
def requiredSecretVars : List String :=
  ["SECRET_MANAGER_PROJECT_ID", "SECRET_MANAGER_SECRET_NAME"]

/-- `GoogleSecretManager.validateEnvironment`: throws when a required
variable is absent or empty. -/
def validateEnvironment (env : String → Option String) : Except String Unit :=
  let missingVars := requiredSecretVars.filter (fun v => jsFalsy (env v))
  if missingVars = [] then .ok ()
  else .error ("Missing required environment variables: " ++
    String.intercalate ", " missingVars)

/-- One step of building the wallet-key map: keys with the `WALLET_KEYS_`
marker and a truthy value are split on `:`; both halves must be nonempty.
Assignment overwrites, modelled by prepending (lookup finds the newest). -/
def addWalletKey (m : List (String × String)) (kv : String × String) :
    List (String × String) :=
  if jsStartsWith kv.1 "WALLET_KEYS_" && kv.2 ≠ "" then
    match jsSplit ':' kv.2 with
    | pk :: sk :: _ => if pk ≠ "" && sk ≠ "" then (pk, sk) :: m else m
    | _ => m
  else m

/-- `createWalletKeysMap` from `utils.ts`: validate the environment, fetch
the secret JSON object (modelled as its entry list, or the fetch error), and
fold the entries into the map.  Any error is rethrown. -/
def createWalletKeysMap (env : String → Option String)
    (secretStore : Except String (List (String × String))) :
    Except String (List (String × String)) :=
  match validateEnvironment env with
  | .error e => .error e
  | .ok _ =>
    match secretStore with
    | .error e => .error e
    | .ok entries => .ok (entries.foldl addWalletKey [])

/-! ## Retry loop and per-trade pipeline (`trade.ts` `main`) -/

/-- `MAX_RETRIES` in `trade.ts`. -/
def MAX_RETRIES : Nat := 3

/-- The delay computed by `exponentialBackoff(attempt)` with its default
`baseDelay = 2000` and `maxDelay = 30000`:
`Math.min(baseDelay * Math.pow(2, attempt), maxDelay)`. -/
def exponentialBackoffDelay (attempt : Nat) : Nat :=
  min (2000 * 2 ^ attempt) 30000

/-- A blockhash lease: `getLatestBlockhash` returns a blockhash and its
`lastValidBlockHeight`. -/
structure Lease where
  blockhash : String
  lastValidBlockHeight : Nat
deriving DecidableEq

/-- Outcome of one `transactionSenderAndConfirmationWaiter` invocation:
a confirmed transaction (its first signature), a `null` response, or a
thrown error. -/
inductive AttemptResult where
  | confirmed (sig : String)
  | nullResp
  | failure (msg : String)
deriving DecidableEq

/-- The external world one trade interacts with: the token-metadata lookup,
the swap-build response payload (`none` when the response omits it), the
chain's latest blockhash at each draw, and the waiter's outcome per attempt. -/
structure TradeEnv where
  decimalsOf : String → Option Nat
  swapTransaction : Option String
  leaseAt : Nat → Lease
  attemptResult : Nat → AttemptResult

/-- Observable trace of the retry loop: the lease passed to each waiter
invocation in order, the backoff sleeps as (attempt, delay ms), the confirmed
signature if any, whether the `failed` fields were set, the number of
`writeTradeResults` calls made inside the loop, and the error escaping the
loop if any. -/
structure RetryTrace where
  leasesPassed : List Lease
  sleeps : List (Nat × Nat)
  success : Option String
  failedSet : Bool
  writes : Nat
  thrownMsg : Option String
deriving DecidableEq

/-- The retry loop body of `trade.ts` (lines 177-226 of the current
version), with `fuel` attempts remaining and `attempt` the current
1-based attempt number.  On a confirmed response the record is updated and
written, and the loop breaks; on a `null` response the loop just moves on;
on a thrown error the failure is logged, and at `MAX_RETRIES` the record is
marked failed, written, and the error rethrown, otherwise
`exponentialBackoff(attempt)` sleeps before the next attempt.  When the loop
ends with `txResponse` still `null`, `'Transaction failed or expired'` is
thrown. -/
def retryGo (env : TradeEnv) (lease : Lease) : Nat → Nat → RetryTrace
  | 0, _ => ⟨[], [], none, false, 0, some "Transaction failed or expired"⟩
  | fuel + 1, attempt =>
    match env.attemptResult attempt with
    | .confirmed sig => ⟨[lease], [], some sig, false, 1, none⟩
    | .nullResp =>
      let t := retryGo env lease fuel (attempt + 1)
      { t with leasesPassed := lease :: t.leasesPassed }
    | .failure _ =>
      if attempt = MAX_RETRIES then
        ⟨[lease], [], none, true, 1, some "Transaction failed after 3 attempts"⟩
      else
        let t := retryGo env lease fuel (attempt + 1)
        { t with
            leasesPassed := lease :: t.leasesPassed,
            sleeps := (attempt, exponentialBackoffDelay attempt) :: t.sleeps }

/-- The retry loop as entered by the source: attempts `1..MAX_RETRIES` with
the one lease fetched before the loop. -/
def retryLoop (env : TradeEnv) (lease : Lease) : RetryTrace :=
  retryGo env lease MAX_RETRIES 1

/-- `Math.floor(parseFloat(coin_amount) * Math.pow(10, tokenDecimals))`,
with the decimal string read exactly. -/
def amountInBaseUnits (coinAmount : String) (decimals : Nat) : Option ℤ :=
  (parseDecimal coinAmount).map (fun q => Int.floor (q * (10 : ℚ) ^ decimals))

/-- `Math.floor(parseFloat(slippage_in_pct) * 100)`. -/
def slippageBpsOf (pct : String) : Option ℤ :=
  (parseDecimal pct).map (fun q => Int.floor (q * 100))

/-- Observable outcome of one trade's processing: the (possibly mutated)
record, the quote-request numbers when the quote call was reached (`none`
inside the pair models `NaN`), the number of blockhash draws, the retry
trace, the `writeTradeResults` calls made, and the message logged by the
per-trade `catch` when the trade threw. -/
structure TradeOutcome where
  updated : TradeInfo
  quoteReq : Option (Option ℤ × Option ℤ)
  leaseDraws : Nat
  leasesPassed : List Lease
  sleeps : List (Nat × Nat)
  writes : Nat
  caughtMsg : Option String
deriving DecidableEq

/-- The per-trade pipeline of `trade.ts` `main` (lines 114-232): token
decimals lookup (throwing for unknown tokens), quote parameters, private-key
lookup, quote and swap-build calls (the swap response may omit its payload),
one blockhash draw, then the retry loop.  Errors are the ones the per-trade
`catch` observes. -/
def processTrade (env : TradeEnv) (keys : List (String × String))
    (t : TradeInfo) : TradeOutcome :=
  match env.decimalsOf t.from_token_address with
  | none =>
    ⟨t, none, 0, [], [], 0,
     some ("Token " ++ t.from_token_address ++ " not found in token_info.csv")⟩
  | some decimals =>
    let amount := amountInBaseUnits t.coin_amount decimals
    let bps := slippageBpsOf t.slippage_in_pct
    match keys.lookup t.wallet_address with
    | none =>
      ⟨t, none, 0, [], [], 0,
       some ("No private key found for wallet: " ++ t.wallet_address)⟩
    | some _ =>
      match env.swapTransaction with
      | none =>
        ⟨t, some (amount, bps), 0, [], [], 0,
         some "Failed to get swap transaction from Jupiter API"⟩
      | some _ =>
        let lease := env.leaseAt 0
        let r := retryLoop env lease
        match r.success with
        | some sig =>
          ⟨{ t with transaction_id := some sig, status := some "success" },
           some (amount, bps), 1, r.leasesPassed, r.sleeps, r.writes, none⟩
        | none =>
          let t' :=
            if r.failedSet then
              { t with status := some "failed", transaction_id := some "" }
            else t
          ⟨t', some (amount, bps), 1, r.leasesPassed, r.sleeps, r.writes,
           r.thrownMsg⟩

/-! ## Batch orchestrator (`trade.ts` `main` loop) -/

/-- Accumulated observations of the batch loop: the final record list, the
per-trade outcomes in order, the full-batch snapshot taken at each
`writeTradeResults` call, the per-trade `catch` log messages, and the
inter-trade sleeps in milliseconds. -/
structure LoopOut where
  finalTrades : List TradeInfo
  outs : List TradeOutcome
  snaps : List (List TradeInfo)
  logs : List String
  delays : List Nat
deriving DecidableEq

/-- The `for` loop of `main`: at index `i` (with `fuel` records left), sleep
`parseInt(delay_seconds || '5') * 1000` ms when `i > 0` and positive, run the
pipeline, mutate the record in place, and — whatever happened — continue with
the next record. -/
def mainGo (envs : Nat → TradeEnv) (keys : List (String × String)) :
    Nat → Nat → List TradeInfo → LoopOut
  | _, 0, cur => ⟨cur, [], [], [], []⟩
  | i, fuel + 1, cur =>
    match cur[i]? with
    | none => ⟨cur, [], [], [], []⟩
    | some t =>
      let delayPart :=
        if i > 0 then
          match parseIntJS (jsOrStr t.delay_seconds "5") with
          | some d => if d > 0 then [d * 1000] else []
          | none => []
        else []
      let o := processTrade (envs i) keys t
      let cur' := cur.set i o.updated
      let rest := mainGo envs keys (i + 1) fuel cur'
      ⟨rest.finalTrades, o :: rest.outs,
       (if o.writes = 1 then [cur'] else []) ++ rest.snaps,
       o.caughtMsg.toList ++ rest.logs,
       delayPart ++ rest.delays⟩

/-- Result of one run: `main(tradeInfoList).catch(e => process.exit(1))` —
a wallet-key failure rejects `main` before the loop and exits with status 1;
otherwise the loop runs to completion over every record and the process ends
normally. -/
structure RunResult where
  exitCode : Nat
  outs : List TradeOutcome
  finalTrades : List TradeInfo
  writeSnapshots : List (List TradeInfo)
  caughtLogs : List String
  interDelays : List Nat
deriving DecidableEq

/-- `main`: build the wallet-key map first, then run the batch loop. -/
def runMain (keysE : Except String (List (String × String)))
    (envs : Nat → TradeEnv) (trades : List TradeInfo) : RunResult :=
  match keysE with
  | .error _ => ⟨1, [], trades, [], [], []⟩
  | .ok keys =>
    let lo := mainGo envs keys 0 trades.length trades
    ⟨0, lo.outs, lo.finalTrades, lo.snaps, lo.logs, lo.delays⟩

/-! ## Observation helpers and concrete fixtures -/

/-- The rows of the last results file written during a run (the content the
results file holds once the run ends), `none` when no write ever happened. -/
def finalResultsRows (headers : List String) (r : RunResult) :
    Option (List (List String)) :=
  (r.writeSnapshots.getLast?).map (resultRows headers)

/-- The spec's results-file property, as a decidable check: a results file
exists, has one row per input record, and every row's status cell is
`success` or `failed`. -/
def resultsClaimHolds (headers : List String) (inputLen : Nat) (r : RunResult) :
    Bool :=
  match finalResultsRows headers r with
  | some rows =>
    decide (rows.length = inputLen) &&
      rows.all (fun row =>
        columnValue (updatedHeaders headers) row "status" = some "success" ||
          columnValue (updatedHeaders headers) row "status" = some "failed")
  | none => false

/-- The status values a record can carry during a run. -/
def statusOK (t : TradeInfo) : Prop :=
  t.status = none ∨ t.status = some "success" ∨ t.status = some "failed"

instance (t : TradeInfo) : Decidable (statusOK t) := by
  unfold statusOK
  infer_instance

/-- The path `writeTradeResults` computes for the calls made from the trade
loop: `trade.ts` passes no `timestamp` argument there. -/
def tradeLoopWritePath (resultsDir nowFormatted : String) : String :=
  resultsPathOf resultsDir none nowFormatted

/-- The five mandatory CSV columns, as a concrete header list. -/
def csvHeaders5 : List String :=
  ["wallet_address", "coin_amount", "slippage_in_pct", "from_token_address",
   "to_token_address"]

/-- A concrete wallet-key map with two wallets. -/
def keysW12 : List (String × String) := [("W1", "pk1"), ("W2", "pk2")]

/-- A concrete trade: wallet `W1` swaps 1.5 SOL into USDC at 0.5 % slippage. -/
def tradeSOL : TradeInfo :=
  { wallet_address := "W1", coin_amount := "1.5", slippage_in_pct := "0.5",
    from_token_address := "SOL", to_token_address := "USDC" }

/-- The same trade issued from wallet `W2`. -/
def tradeSOL2 : TradeInfo :=
  { tradeSOL with wallet_address := "W2" }

/-- A token-metadata table knowing only SOL, with 9 decimals. -/
def decimalsSOL : String → Option Nat :=
  fun a => if a = "SOL" then some 9 else none

/-- The chain's latest blockhash at each draw: every fresh draw yields a
different lease (its `lastValidBlockHeight` advances). -/
def leaseChain : Nat → Lease :=
  fun n => ⟨"bh", 100 + n⟩

/-- Environment in which the waiter throws on attempt 1 and confirms on
attempt 2. -/
def envRetryThenConfirm : TradeEnv :=
  { decimalsOf := decimalsSOL, swapTransaction := some "swaptx",
    leaseAt := leaseChain,
    attemptResult := fun n =>
      if n = 1 then .failure "Transaction was not confirmed" else .confirmed "sig1" }

/-- Environment in which the waiter confirms immediately. -/
def envConfirmFirst : TradeEnv :=
  { decimalsOf := decimalsSOL, swapTransaction := some "swaptx",
    leaseAt := leaseChain, attemptResult := fun _ => .confirmed "sig1" }

/-- Environment in which the swap-build response omits its transaction
payload. -/
def envNoSwapTx : TradeEnv :=
  { decimalsOf := decimalsSOL, swapTransaction := none,
    leaseAt := leaseChain, attemptResult := fun _ => .nullResp }

/-- Environment in which the waiter throws on every attempt. -/
def envAlwaysThrow : TradeEnv :=
  { decimalsOf := decimalsSOL, swapTransaction := some "swaptx",
    leaseAt := leaseChain,
    attemptResult := fun _ => .failure "Transaction was not confirmed" }

/-- Per-trade environments: trade 1 succeeds, trade 2 gets no swap payload
from the quote service. -/
def envsSuccThenNoSwap : Nat → TradeEnv :=
  fun i => if i = 0 then envConfirmFirst else envNoSwapTx

/-- Per-trade environments: trade 1 gets no swap payload, trade 2 succeeds. -/
def envsNoSwapThenSucc : Nat → TradeEnv :=
  fun i => if i = 0 then envNoSwapTx else envConfirmFirst

/-- Batch run for the results-file counterexample: trade 1 succeeds, trade 2
gets no swap payload from the quote service. -/
def runSuccThenNoSwap : RunResult :=
  runMain (.ok keysW12) envsSuccThenNoSwap [tradeSOL, tradeSOL2]

/-- Batch run for the missing-payload counterexample: trade 1 gets no swap
payload, trade 2 succeeds. -/
def runNoSwapThenSucc : RunResult :=
  runMain (.ok keysW12) envsNoSwapThenSucc [tradeSOL, tradeSOL2]

/-- `tradeSOL` after a confirmed swap. -/
def tradeSOLSuccess : TradeInfo :=
  { tradeSOL with transaction_id := some "sig1", status := some "success" }

/-- The single batch snapshot `runSuccThenNoSwap` writes. -/
def snapSuccThenNoSwap : List TradeInfo := [tradeSOLSuccess, tradeSOL2]

/-- A directory listing with one unrelated file and two confirmation
sheets. -/
def confFiles : List String :=
  ["a.csv", "trade_confirmation_sheet_20250101_000000.csv",
   "trade_confirmation_sheet_20250102_000000.csv"]

/-- An environment with no variables set at all. -/
def envEmptyVars : String → Option String := fun _ => none

/-- A confirmation sheet whose single data row has an empty
`wallet_address`. -/
def emptyWalletCSV : String :=
  "wallet_address,coin_amount,slippage_in_pct,from_token_address,to_token_address\n,1.5,0.5,SOL,USDC"

/-! ## Helper lemmas -/

theorem lexLt_irrefl : ∀ l : List Char, lexLt l l = false
  | [] => rfl
  | c :: cs => by simp [lexLt, lexLt_irrefl cs]

theorem lexLt_asymm : ∀ a b : List Char, lexLt a b = true → lexLt b a = false := by
  intro a
  induction a with
  | nil =>
    intro b h
    cases b with
    | nil => simp [lexLt] at h
    | cons d ds => simp [lexLt]
  | cons c cs ih =>
    intro b h
    cases b with
    | nil => simp [lexLt] at h
    | cons d ds =>
      simp only [lexLt] at h ⊢
      by_cases hcd : c < d
      · have hdc : ¬ d < c := lt_asymm hcd
        simp [hcd, hdc]
      · by_cases hdc : d < c
        · simp [hcd, hdc] at h
        · simp only [hcd, hdc, if_false] at h ⊢
          exact ih ds h

theorem lexLt_trans : ∀ a b c : List Char,
    lexLt a b = true → lexLt b c = true → lexLt a c = true := by
  intro a
  induction a with
  | nil =>
    intro b c h1 h2
    cases b with
    | nil => simp [lexLt] at h1
    | cons y ys =>
      cases c with
      | nil => simp [lexLt] at h2
      | cons z zs => simp [lexLt]
  | cons x xs ih =>
    intro b c h1 h2
    cases b with
    | nil => simp [lexLt] at h1
    | cons y ys =>
      cases c with
      | nil => simp [lexLt] at h2
      | cons z zs =>
        simp only [lexLt] at h1 h2 ⊢
        by_cases hxy : x < y
        · by_cases hyz : y < z
          · simp [lt_trans hxy hyz]
          · by_cases hzy : z < y
            · simp only [hyz, hzy, if_false, if_true] at h2
              cases h2
            · have : y = z := le_antisymm (le_of_not_lt hzy) (le_of_not_lt hyz)
              subst this
              simp [hxy]
        · by_cases hyx : y < x
          · simp [hxy, hyx] at h1
          · have hx_eq : x = y := le_antisymm (le_of_not_lt hyx) (le_of_not_lt hxy)
            subst hx_eq
            simp only [hxy, lt_irrefl, if_false] at h1 ⊢
            by_cases hyz : x < z
            · simp [hyz]
            · by_cases hzy : z < x
              · simp only [hyz, hzy, if_false, if_true] at h2
                cases h2
              · simp only [hyz, hzy, if_false] at h2 ⊢
                exact ih ys zs h1 h2

theorem lexLt_connex : ∀ a b : List Char,
    lexLt a b = false → lexLt b a = false → a = b := by
  intro a
  induction a with
  | nil =>
    intro b h1 _
    cases b with
    | nil => rfl
    | cons d ds => simp [lexLt] at h1
  | cons c cs ih =>
    intro b h1 h2
    cases b with
    | nil => simp [lexLt] at h2
    | cons d ds =>
      simp only [lexLt] at h1 h2
      by_cases hcd : c < d
      · simp [hcd] at h1
      · by_cases hdc : d < c
        · simp [hdc] at h2
        · have hcd_eq : c = d := le_antisymm (le_of_not_lt hdc) (le_of_not_lt hcd)
          simp only [hcd, hdc, if_false] at h1 h2
          rw [hcd_eq, ih ds h1 h2]

theorem jsLe_refl (a : String) : jsLe a a = true := by
  simp [jsLe, lexLt_irrefl]

theorem jsLe_total (a b : String) (h : jsLe a b = false) : jsLe b a = true := by
  simp only [jsLe, Bool.not_eq_false'] at h
  simp only [jsLe, Bool.not_eq_true']
  exact lexLt_asymm _ _ h

theorem jsLe_trans (a b c : String) (h1 : jsLe a b = true) (h2 : jsLe b c = true) :
    jsLe a c = true := by
  simp only [jsLe, Bool.not_eq_true'] at h1 h2 ⊢
  by_contra hc
  rw [Bool.not_eq_false] at hc
  cases hb : lexLt a.data b.data with
  | false =>
    have hab := lexLt_connex _ _ hb h1
    rw [hab] at hc
    rw [hc] at h2
    cases h2
  | true =>
    have := lexLt_trans _ _ _ hc hb
    rw [this] at h2
    cases h2

theorem mem_orderedInsertJs (x a : String) :
    ∀ l, x ∈ orderedInsertJs a l ↔ x = a ∨ x ∈ l := by
  intro l
  induction l with
  | nil => simp [orderedInsertJs]
  | cons b t ih =>
    by_cases h : jsLe a b = true
    · simp [orderedInsertJs, h]
    · simp [orderedInsertJs, h, ih]
      tauto

theorem orderedInsertJs_ne_nil (a : String) (l : List String) :
    orderedInsertJs a l ≠ [] := by
  cases l with
  | nil => simp [orderedInsertJs]
  | cons b t =>
    simp only [orderedInsertJs]
    split <;> simp

theorem lastMax_orderedInsertJs :
    ∀ (l : List String) (a : String),
      (∀ z, l.getLast? = some z → ∀ x ∈ l, jsLe x z = true) →
      ∀ w, (orderedInsertJs a l).getLast? = some w →
        ∀ x ∈ orderedInsertJs a l, jsLe x w = true := by
  intro l
  induction l with
  | nil =>
    intro a _ w hw x hx
    simp only [orderedInsertJs, List.getLast?_singleton, Option.some.injEq] at hw
    simp only [orderedInsertJs, List.mem_singleton] at hx
    rw [hx, hw]
    exact jsLe_refl _
  | cons b t ih =>
    intro a H w hw x hx
    by_cases hab : jsLe a b = true
    · have hrw : orderedInsertJs a (b :: t) = a :: b :: t := by
        simp [orderedInsertJs, hab]
      rw [hrw] at hw hx
      rw [List.getLast?_cons_cons] at hw
      have hbt : ∀ y ∈ b :: t, jsLe y w = true := H w hw
      rcases List.mem_cons.mp hx with hxa | hxbt
      · subst hxa
        exact jsLe_trans x b w hab (hbt b (List.mem_cons_self b t))
      · exact hbt x hxbt
    · have hrw : orderedInsertJs a (b :: t) = b :: orderedInsertJs a t := by
        simp [orderedInsertJs, hab]
      rw [hrw] at hw hx
      have hins : orderedInsertJs a t ≠ [] := orderedInsertJs_ne_nil a t
      have hw' : (orderedInsertJs a t).getLast? = some w := by
        rcases hne : orderedInsertJs a t with _ | ⟨i0, irest⟩
        · exact absurd hne hins
        · rw [hne] at hw
          rw [List.getLast?_cons_cons] at hw
          exact hw
      have Ht : ∀ z, t.getLast? = some z → ∀ y ∈ t, jsLe y z = true := by
        intro z hz y hyt
        cases t with
        | nil => simp at hyt
        | cons t0 ts =>
          exact H z (by rw [List.getLast?_cons_cons]; exact hz) y
            (List.mem_cons_of_mem b hyt)
      have hIH : ∀ y ∈ orderedInsertJs a t, jsLe y w = true :=
        fun y hy => ih a Ht w hw' y hy
      have hab' : jsLe a b = false := by
        cases hjs : jsLe a b with
        | false => rfl
        | true => exact absurd hjs hab
      rcases List.mem_cons.mp hx with hxb | hxrest
      · subst hxb
        have hba : jsLe x a = true := jsLe_total a x hab'
        have haw : jsLe a w = true :=
          hIH a ((mem_orderedInsertJs a a t).mpr (Or.inl rfl))
        exact jsLe_trans x a w hba haw
      · exact hIH x hxrest

theorem lastMax_jsSort :
    ∀ (l : List String) (w), (jsSort l).getLast? = some w →
      ∀ x ∈ jsSort l, jsLe x w = true := by
  intro l
  induction l with
  | nil => intro w hw; simp [jsSort] at hw
  | cons a t ih =>
    intro w hw x hx
    exact lastMax_orderedInsertJs (jsSort t) a ih w hw x hx

theorem mem_jsSort (x : String) : ∀ l, x ∈ jsSort l ↔ x ∈ l := by
  intro l
  induction l with
  | nil => simp [jsSort]
  | cons a t ih => simp [jsSort, mem_orderedInsertJs, ih]

theorem getLatest_isMax (files : List String) (f : String)
    (h : getLatestTradeConfirmation files = some f) :
    (jsStartsWith f confSheetMarker = true ∧ f ∈ files) ∧
      ∀ g ∈ files, jsStartsWith g confSheetMarker = true → jsLe g f = true := by
  unfold getLatestTradeConfirmation at h
  rw [List.head?_reverse] at h
  have hmemSort : f ∈ jsSort (files.filter (fun g => jsStartsWith g confSheetMarker)) :=
    List.mem_of_getLast?_eq_some h
  have hmem : f ∈ files.filter (fun g => jsStartsWith g confSheetMarker) :=
    (mem_jsSort f _).mp hmemSort
  have hf := List.mem_filter.mp hmem
  refine ⟨⟨hf.2, hf.1⟩, ?_⟩
  intro g hg hgm
  exact lastMax_jsSort _ f h g
    ((mem_jsSort g _).mpr (List.mem_filter.mpr ⟨hg, hgm⟩))

theorem getLatest_none (files : List String)
    (h : ∀ g ∈ files, jsStartsWith g confSheetMarker = false) :
    getLatestTradeConfirmation files = none := by
  unfold getLatestTradeConfirmation
  have : files.filter (fun g => jsStartsWith g confSheetMarker) = [] := by
    rw [List.filter_eq_nil_iff]
    intro a ha
    simp [h a ha]
  rw [this]
  rfl

theorem mem_dedupFirstAux :
    ∀ (l seen : List String) (x : String),
      x ∈ dedupFirstAux seen l ↔ x ∈ l ∧ x ∉ seen := by
  intro l
  induction l with
  | nil => intro seen x; simp [dedupFirstAux]
  | cons h t ih =>
    intro seen x
    by_cases hin : h ∈ seen
    · simp only [dedupFirstAux, hin, if_true, ih, List.mem_cons]
      constructor
      · rintro ⟨hxt, hxs⟩
        exact ⟨Or.inr hxt, hxs⟩
      · rintro ⟨hx, hxs⟩
        rcases hx with hxh | hxt
        · subst hxh
          exact absurd hin hxs
        · exact ⟨hxt, hxs⟩
    · simp only [dedupFirstAux, hin, if_false, List.mem_cons, ih]
      by_cases hxh : x = h
      · subst hxh
        simp [hin]
      · simp only [hxh, false_or]

theorem mem_dedupFirst (l : List String) (x : String) :
    x ∈ dedupFirst l ↔ x ∈ l := by
  unfold dedupFirst
  rw [mem_dedupFirstAux]
  simp

theorem status_mem_updatedHeaders (headers : List String) :
    "status" ∈ updatedHeaders headers := by
  unfold updatedHeaders
  rw [mem_dedupFirst]
  simp

theorem columnValue_map (name : String) :
    ∀ (hs : List String) (t : TradeInfo), name ∈ hs →
      columnValue hs (hs.map (getField t)) name = some (getField t name) := by
  intro hs
  induction hs with
  | nil => intro t h; simp at h
  | cons h hs' ih =>
    intro t hmem
    simp only [List.map_cons, columnValue]
    by_cases hh : h = name
    · subst hh
      simp
    · rw [if_neg hh]
      rcases List.mem_cons.mp hmem with h1 | h2
      · exact absurd h1.symm hh
      · exact ih t h2

theorem columnValue_resultRow (headers : List String) (t : TradeInfo) :
    columnValue (updatedHeaders headers) (resultRow (updatedHeaders headers) t)
      "status" = some (getField t "status") :=
  columnValue_map "status" (updatedHeaders headers) t
    (status_mem_updatedHeaders headers)

theorem getField_status (t : TradeInfo) : getField t "status" = t.status.getD "" :=
  rfl

theorem retryLoop_spec (env : TradeEnv) (lease : Lease) :
    (retryLoop env lease).leasesPassed.length ≤ 3 ∧
      (∀ le ∈ (retryLoop env lease).leasesPassed, le = lease) ∧
      ∀ p ∈ (retryLoop env lease).sleeps,
        p.2 = min (2000 * 2 ^ p.1) 30000 ∧ 1 ≤ p.1 ∧ p.1 < MAX_RETRIES := by
  rcases h1 : env.attemptResult 1 with s1 | _ | m1 <;>
    rcases h2 : env.attemptResult 2 with s2 | _ | m2 <;>
      rcases h3 : env.attemptResult 3 with s3 | _ | m3 <;>
        simp [retryLoop, retryGo, MAX_RETRIES, exponentialBackoffDelay, h1, h2, h3]

theorem processTrade_trace (env : TradeEnv) (keys : List (String × String))
    (t : TradeInfo) :
    (processTrade env keys t).leasesPassed.length ≤ 3 ∧
      (∀ le ∈ (processTrade env keys t).leasesPassed, le = env.leaseAt 0) ∧
      (∀ p ∈ (processTrade env keys t).sleeps,
        p.2 = min (2000 * 2 ^ p.1) 30000 ∧ 1 ≤ p.1 ∧ p.1 < MAX_RETRIES) ∧
      (processTrade env keys t).leaseDraws ≤ 1 := by
  unfold processTrade
  cases hd : env.decimalsOf t.from_token_address <;> simp only [hd]
  · simp
  · cases hk : keys.lookup t.wallet_address <;> simp only [hk]
    · simp
    · cases hs : env.swapTransaction <;> simp only [hs]
      · simp
      · have h := retryLoop_spec env (env.leaseAt 0)
        cases hr : (retryLoop env (env.leaseAt 0)).success <;> simp only [hr]
        · exact ⟨h.1, h.2.1, h.2.2, by norm_num⟩
        · exact ⟨h.1, h.2.1, h.2.2, by norm_num⟩

theorem processTrade_updated_status (env : TradeEnv)
    (keys : List (String × String)) (t : TradeInfo) :
    (processTrade env keys t).updated.status = t.status ∨
      (processTrade env keys t).updated.status = some "success" ∨
      (processTrade env keys t).updated.status = some "failed" := by
  unfold processTrade
  cases hd : env.decimalsOf t.from_token_address <;> simp only [hd]
  · left; trivial
  · cases hk : keys.lookup t.wallet_address <;> simp only [hk]
    · left; trivial
    · cases hs : env.swapTransaction <;> simp only [hs]
      · left; trivial
      · cases hr : (retryLoop env (env.leaseAt 0)).success <;> simp only [hr]
        · cases hf : (retryLoop env (env.leaseAt 0)).failedSet <;> simp [hf]
        · right; left; trivial

theorem processTrade_statusOK (env : TradeEnv) (keys : List (String × String))
    (t : TradeInfo) (h : statusOK t) : statusOK (processTrade env keys t).updated := by
  rcases processTrade_updated_status env keys t with h1 | h1 | h1
  · unfold statusOK at h ⊢
    rw [h1]
    exact h
  · exact Or.inr (Or.inl h1)
  · exact Or.inr (Or.inr h1)

theorem mainGo_outs_length (envs : Nat → TradeEnv)
    (keys : List (String × String)) :
    ∀ (fuel i : Nat) (cur : List TradeInfo), i + fuel = cur.length →
      (mainGo envs keys i fuel cur).outs.length = fuel := by
  intro fuel
  induction fuel with
  | zero => intro i cur _; simp [mainGo]
  | succ f ih =>
    intro i cur h
    have hi : i < cur.length := by omega
    have ht : cur[i]? = some cur[i] := List.getElem?_eq_getElem hi
    simp only [mainGo, ht, List.length_cons]
    rw [ih (i + 1) (cur.set i (processTrade (envs i) keys cur[i]).updated)
      (by simp [List.length_set]; omega)]

theorem mainGo_logs (envs : Nat → TradeEnv) (keys : List (String × String)) :
    ∀ (fuel i : Nat) (cur : List TradeInfo),
      (mainGo envs keys i fuel cur).logs =
        (mainGo envs keys i fuel cur).outs.filterMap (fun o => o.caughtMsg) := by
  intro fuel
  induction fuel with
  | zero => intro i cur; simp [mainGo]
  | succ f ih =>
    intro i cur
    cases ht : cur[i]? with
    | none => simp [mainGo, ht]
    | some t =>
      simp only [mainGo, ht, List.filterMap_cons]
      cases hm : (processTrade (envs i) keys t).caughtMsg with
      | none => simp [hm, ih]
      | some m => simp [hm, ih]

theorem mainGo_snaps (envs : Nat → TradeEnv) (keys : List (String × String)) :
    ∀ (fuel i : Nat) (cur : List TradeInfo),
      (∀ t ∈ cur, statusOK t) →
      ∀ s ∈ (mainGo envs keys i fuel cur).snaps,
        s.length = cur.length ∧ ∀ t ∈ s, statusOK t := by
  intro fuel
  induction fuel with
  | zero => intro i cur _ s hs; simp [mainGo] at hs
  | succ f ih =>
    intro i cur hcur s hs
    cases ht : cur[i]? with
    | none => simp [mainGo, ht] at hs
    | some t =>
      have htmem : t ∈ cur := List.getElem?_mem ht
      have hok : statusOK (processTrade (envs i) keys t).updated :=
        processTrade_statusOK _ _ _ (hcur t htmem)
      have hcur' : ∀ x ∈ cur.set i (processTrade (envs i) keys t).updated,
          statusOK x := by
        intro x hx
        rcases List.mem_or_eq_of_mem_set hx with h1 | h1
        · exact hcur x h1
        · rw [h1]; exact hok
      simp only [mainGo, ht] at hs
      rw [List.mem_append] at hs
      rcases hs with hs | hs
      · by_cases hw : (processTrade (envs i) keys t).writes = 1
        · rw [if_pos hw] at hs
          rw [List.mem_singleton] at hs
          subst hs
          exact ⟨List.length_set cur i _, hcur'⟩
        · rw [if_neg hw] at hs
          simp at hs
      · have hrec := ih (i + 1) _ hcur' s hs
        rwa [List.length_set] at hrec

theorem parseDecimal_15 : parseDecimal "1.5" = some (3 / 2) := by
  have h : splitOnChar '.' "1.5".data = [['1'], ['5']] := by decide
  have h1 : parseDigits ['1'] = some 1 := by decide
  have h5 : parseDigits ['5'] = some 5 := by decide
  rw [parseDecimal, h]
  simp [h1, h5]
  norm_num

theorem parseDecimal_05 : parseDecimal "0.5" = some (1 / 2) := by
  have h : splitOnChar '.' "0.5".data = [['0'], ['5']] := by decide
  have h0 : parseDigits ['0'] = some 0 := by decide
  have h5 : parseDigits ['5'] = some 5 := by decide
  rw [parseDecimal, h]
  simp [h0, h5]
  norm_num

theorem amountInBaseUnits_15_9 : amountInBaseUnits "1.5" 9 = some 1500000000 := by
  rw [amountInBaseUnits, parseDecimal_15]
  simp only [Option.map_some']
  congr 1
  have h : (3 / 2 : ℚ) * (10 : ℚ) ^ 9 = ((1500000000 : ℤ) : ℚ) := by norm_num
  rw [h, Int.floor_intCast]

theorem slippageBpsOf_05 : slippageBpsOf "0.5" = some 50 := by
  rw [slippageBpsOf, parseDecimal_05]
  simp only [Option.map_some']
  congr 1
  have h : (1 / 2 : ℚ) * (100 : ℚ) = ((50 : ℤ) : ℚ) := by norm_num
  rw [h, Int.floor_intCast]

theorem tradeLoopWritePath_eq (dir now : String) :
    tradeLoopWritePath dir now = dir ++ "/trade_results_" ++ now ++ ".csv" :=
  rfl

theorem tradeLoopWritePath_inj (dir n1 n2 : String) :
    tradeLoopWritePath dir n1 = tradeLoopWritePath dir n2 ↔ n1 = n2 := by
  constructor
  · intro h
    rw [tradeLoopWritePath_eq, tradeLoopWritePath_eq] at h
    have hd := congrArg String.data h
    simp only [String.data_append] at hd
    have h1 := List.append_cancel_right hd
    have h2 := List.append_cancel_left h1
    exact String.ext h2
  · intro h
    rw [h]

theorem validateEnvironment_missing (env : String → Option String)
    (h : jsFalsy (env "SECRET_MANAGER_PROJECT_ID") = true ∨
      jsFalsy (env "SECRET_MANAGER_SECRET_NAME") = true) :
    ∃ e, validateEnvironment env = .error e := by
  unfold validateEnvironment requiredSecretVars
  cases hA : jsFalsy (env "SECRET_MANAGER_PROJECT_ID") with
  | true =>
    simp [hA, List.filter_cons]
  | false =>
    have hB : jsFalsy (env "SECRET_MANAGER_SECRET_NAME") = true := by
      rcases h with h | h
      · rw [hA] at h; cases h
      · exact h
    simp [hA, hB, List.filter_cons]

theorem createWalletKeysMap_env_error (env : String → Option String)
    (store : Except String (List (String × String))) (e : String)
    (h : validateEnvironment env = .error e) :
    createWalletKeysMap env store = .error e := by
  unfold createWalletKeysMap
  rw [h]

theorem createWalletKeysMap_store_error (env : String → Option String)
    (e : String) (hok : validateEnvironment env = .ok ()) :
    createWalletKeysMap env (.error e) = .error e := by
  unfold createWalletKeysMap
  rw [hok]

theorem runMain_keys_error (msg : String) (envs : Nat → TradeEnv)
    (trades : List TradeInfo) :
    runMain (.error msg) envs trades = ⟨1, [], trades, [], [], []⟩ :=
  rfl

/-! ## Claim theorems -/

/-- C1: the spec demands that a fresh blockhash lease be drawn immediately
before each attempt of the retry loop, so that no two attempts of one trade
receive the identical lease.  The code instead calls `getLatestBlockhash`
once per trade, before the loop, and passes that one lease to every attempt:
on a trade whose first attempt fails and whose second succeeds, the pipeline
performs exactly one lease draw, both waiter invocations receive the
identical draw-0 lease, and a genuinely fresh second draw would have been a
different lease. -/
theorem c1_lease_reused_across_attempts :
    (processTrade envRetryThenConfirm keysW12 tradeSOL).leasesPassed =
        [leaseChain 0, leaseChain 0] ∧
      (processTrade envRetryThenConfirm keysW12 tradeSOL).leaseDraws = 1 ∧
      leaseChain 0 ≠ leaseChain 1 := by
  decide

/-- C2: the row with `coin_amount = "1.5"` and `slippage_in_pct = "0.5"` and
a 9-decimal source token yields a quote request with
`amountInBaseUnits = 1500000000` and `slippageBps = 50`; in general the
amount is `floor(parsed amount * 10^decimals)` and the slippage is
`floor(parsed percent * 100)`. -/
theorem c2_quote_parameters :
    amountInBaseUnits "1.5" 9 = some 1500000000 ∧
      slippageBpsOf "0.5" = some 50 ∧
      (processTrade envConfirmFirst keysW12 tradeSOL).quoteReq =
        some (some 1500000000, some 50) ∧
      (∀ (s : String) (q : ℚ) (d : Nat), parseDecimal s = some q →
        amountInBaseUnits s d = some (Int.floor (q * (10 : ℚ) ^ d))) ∧
      ∀ (s : String) (q : ℚ), parseDecimal s = some q →
        slippageBpsOf s = some (Int.floor (q * 100)) := by
  have hq : (processTrade envConfirmFirst keysW12 tradeSOL).quoteReq =
      some (amountInBaseUnits "1.5" 9, slippageBpsOf "0.5") := rfl
  refine ⟨amountInBaseUnits_15_9, slippageBpsOf_05, ?_, ?_, ?_⟩
  · rw [hq, amountInBaseUnits_15_9, slippageBpsOf_05]
  · intro s q d h
    rw [amountInBaseUnits, h]
    rfl
  · intro s q h
    rw [slippageBpsOf, h]
    rfl

/-- Witness for C2: the general conversion formulas applied at the concrete
input `"2.5"` with 3 decimals. -/
theorem c2_quote_parameters_witness :
    parseDecimal "2.5" = some (5 / 2) ∧
      amountInBaseUnits "2.5" 3 = some (Int.floor ((5 / 2 : ℚ) * (10 : ℚ) ^ 3)) ∧
      slippageBpsOf "2.5" = some (Int.floor ((5 / 2 : ℚ) * 100)) := by
  have hp : parseDecimal "2.5" = some (5 / 2) := by
    have h : splitOnChar '.' "2.5".data = [['2'], ['5']] := by decide
    have h2 : parseDigits ['2'] = some 2 := by decide
    have h5 : parseDigits ['5'] = some 5 := by decide
    rw [parseDecimal, h]
    simp [h2, h5]
    norm_num
  exact ⟨hp, c2_quote_parameters.2.2.2.1 "2.5" (5 / 2) 3 hp,
    c2_quote_parameters.2.2.2.2 "2.5" (5 / 2) hp⟩

/-- C3: per trade the Confirmation Waiter is invoked at most
`MAX_RETRIES = 3` times (each invocation is one entry of `leasesPassed`),
and every backoff slept after a failed attempt `n` with `n < MAX_RETRIES`
lasts `min(2000 * 2^n, 30000)` milliseconds. -/
theorem c3_retry_bound_and_backoff (env : TradeEnv)
    (keys : List (String × String)) (t : TradeInfo) :
    (processTrade env keys t).leasesPassed.length ≤ 3 ∧
      ∀ p ∈ (processTrade env keys t).sleeps,
        p.2 = min (2000 * 2 ^ p.1) 30000 ∧ 1 ≤ p.1 ∧ p.1 < MAX_RETRIES := by
  have h := processTrade_trace env keys t
  exact ⟨h.1, h.2.2.1⟩

/-- Witness for C3: on the trade whose first attempt fails, the loop makes
two waiter invocations and sleeps 4000 ms after attempt 1. -/
theorem c3_retry_bound_and_backoff_witness :
    (processTrade envRetryThenConfirm keysW12 tradeSOL).leasesPassed.length ≤ 3 ∧
      (1, 4000) ∈ (processTrade envRetryThenConfirm keysW12 tradeSOL).sleeps ∧
      (4000 : Nat) = min (2000 * 2 ^ 1) 30000 ∧ 1 < MAX_RETRIES := by
  have h := c3_retry_bound_and_backoff envRetryThenConfirm keysW12 tradeSOL
  have hmem : (1, 4000) ∈ (processTrade envRetryThenConfirm keysW12 tradeSOL).sleeps := by
    decide
  have hp := h.2 (1, 4000) hmem
  exact ⟨h.1, hmem, hp.1, hp.2.2⟩

/-- C4: counterexample.  The claim says the results file ends with one row
per input trade and every row's status non-empty, either `success` or
`failed`.  On the batch where trade 1 succeeds and trade 2 then fails before
its retry loop (the swap response omits its payload), the final results file
has a second row whose status cell is the empty string: the per-trade
`catch` never sets `status`, and no later write occurs. -/
theorem c4_results_status_counterexample :
    resultsClaimHolds csvHeaders5 2 runSuccThenNoSwap = false ∧
      (finalResultsRows csvHeaders5 runSuccThenNoSwap).map
          (fun rows => rows.map (fun row =>
            columnValue (updatedHeaders csvHeaders5) row "status")) =
        some [some "success", some ""] := by
  decide

/-- C4 (amended): every snapshot the run writes has exactly one row per
input record, and each row's status cell is `""`, `"success"` or `"failed"`
— the empty status occurring for records that have not reached a terminal
write. -/
theorem c4_results_rows_amended (keys : List (String × String))
    (envs : Nat → TradeEnv) (trades : List TradeInfo) (headers : List String)
    (h : ∀ t ∈ trades, statusOK t) :
    ∀ snap ∈ (runMain (.ok keys) envs trades).writeSnapshots,
      (resultRows headers snap).length = trades.length ∧
        ∀ row ∈ resultRows headers snap,
          columnValue (updatedHeaders headers) row "status" = some "" ∨
            columnValue (updatedHeaders headers) row "status" = some "success" ∨
            columnValue (updatedHeaders headers) row "status" = some "failed" := by
  intro snap hsnap
  have hsnap' : snap ∈ (mainGo envs keys 0 trades.length trades).snaps := by
    simpa [runMain] using hsnap
  have hs := mainGo_snaps envs keys trades.length 0 trades h snap hsnap'
  constructor
  · simp [resultRows, hs.1]
  · intro row hrow
    rw [resultRows, List.mem_map] at hrow
    rcases hrow with ⟨t, htmem, rfl⟩
    rw [columnValue_resultRow headers t, getField_status]
    rcases hs.2 t htmem with h1 | h1 | h1 <;> rw [h1] <;> simp

/-- Witness for C4 (amended): the row written for the still-pending second
trade of the concrete batch carries one of the three permitted status
cells. -/
theorem c4_results_rows_amended_witness :
    columnValue (updatedHeaders csvHeaders5)
        (resultRow (updatedHeaders csvHeaders5) tradeSOL2) "status" = some "" ∨
      columnValue (updatedHeaders csvHeaders5)
          (resultRow (updatedHeaders csvHeaders5) tradeSOL2) "status" =
        some "success" ∨
      columnValue (updatedHeaders csvHeaders5)
          (resultRow (updatedHeaders csvHeaders5) tradeSOL2) "status" =
        some "failed" := by
  have h := c4_results_rows_amended keysW12 envsSuccThenNoSwap
    [tradeSOL, tradeSOL2] csvHeaders5 (by decide)
  have hsnap : snapSuccThenNoSwap ∈
      (runMain (.ok keysW12) envsSuccThenNoSwap
        [tradeSOL, tradeSOL2]).writeSnapshots := by decide
  have h2 := h snapSuccThenNoSwap hsnap
  exact h2.2 (resultRow (updatedHeaders csvHeaders5) tradeSOL2) (by
    rw [resultRows, List.mem_map]
    exact ⟨tradeSOL2, by decide, rfl⟩)

/-- C5: the batch loop produces one per-trade outcome for every input record
no matter how individual trades end, and every message a per-trade `catch`
observes is appended to the log: one trade's failure never terminates the
loop. -/
theorem c5_failure_isolation (keys : List (String × String))
    (envs : Nat → TradeEnv) (trades : List TradeInfo) :
    (runMain (.ok keys) envs trades).outs.length = trades.length ∧
      ∀ o ∈ (runMain (.ok keys) envs trades).outs, ∀ m, o.caughtMsg = some m →
        m ∈ (runMain (.ok keys) envs trades).caughtLogs := by
  constructor
  · simpa [runMain] using
      mainGo_outs_length envs keys trades.length 0 trades (by omega)
  · intro o ho m hm
    simp only [runMain] at ho ⊢
    rw [mainGo_logs]
    rw [List.mem_filterMap]
    exact ⟨o, ho, hm⟩

/-- Witness for C5: in the run whose first trade fails on a missing swap
payload, both trades are still processed and the failure is logged. -/
theorem c5_failure_isolation_witness :
    runNoSwapThenSucc.outs.length = 2 ∧
      "Failed to get swap transaction from Jupiter API" ∈
        runNoSwapThenSucc.caughtLogs := by
  have h := c5_failure_isolation keysW12 envsNoSwapThenSucc [tradeSOL, tradeSOL2]
  refine ⟨h.1, ?_⟩
  have houts : (runMain (.ok keysW12) envsNoSwapThenSucc
      [tradeSOL, tradeSOL2]).outs =
      processTrade envNoSwapTx keysW12 tradeSOL ::
        [processTrade envConfirmFirst keysW12 tradeSOL2] := rfl
  refine h.2 (processTrade envNoSwapTx keysW12 tradeSOL) ?_
    "Failed to get swap transaction from Jupiter API" (by decide)
  rw [houts]
  exact List.mem_cons_self _ _

/-- C6: counterexample.  The claim says a missing swap payload ends the
trade with `status = "failed"` recorded in the results file.  In the run
whose first trade gets no payload, the trade's record keeps `status` unset,
its results-file row shows the empty string (not `failed`), no write happens
for it — the batch does proceed to the next record, which succeeds. -/
theorem c6_no_payload_counterexample :
    runNoSwapThenSucc.finalTrades.map (fun t => t.status) =
        [none, some "success"] ∧
      runNoSwapThenSucc.outs.length = 2 ∧
      runNoSwapThenSucc.caughtLogs =
        ["Failed to get swap transaction from Jupiter API"] ∧
      (finalResultsRows csvHeaders5 runNoSwapThenSucc).map
          (fun rows => rows.map (fun row =>
            columnValue (updatedHeaders csvHeaders5) row "status")) =
        some [some "", some "success"] ∧
      (finalResultsRows csvHeaders5 runNoSwapThenSucc).map
          (fun rows => rows.map (fun row =>
            columnValue (updatedHeaders csvHeaders5) row "transaction_id")) =
        some [some "", some "sig1"] := by
  decide

/-- C6 (amended): when the swap-build response omits its payload, the trade
throws `Failed to get swap transaction from Jupiter API`, which the
per-trade `catch` logs; the record is left unchanged — no `failed` status,
no transaction id — and no result write happens for this trade, so its row
keeps empty status and transaction-id cells in any later write. -/
theorem c6_no_payload_amended (env : TradeEnv) (keys : List (String × String))
    (t : TradeInfo) (d : Nat) (pk : String)
    (hd : env.decimalsOf t.from_token_address = some d)
    (hk : keys.lookup t.wallet_address = some pk)
    (hs : env.swapTransaction = none) :
    (processTrade env keys t).updated = t ∧
      (processTrade env keys t).writes = 0 ∧
      (processTrade env keys t).caughtMsg =
        some "Failed to get swap transaction from Jupiter API" := by
  unfold processTrade
  simp only [hd, hk, hs]
  simp

/-- Witness for C6 (amended): the missing-payload behaviour at the concrete
trade and environment. -/
theorem c6_no_payload_amended_witness :
    (processTrade envNoSwapTx keysW12 tradeSOL).updated = tradeSOL ∧
      (processTrade envNoSwapTx keysW12 tradeSOL).writes = 0 ∧
      (processTrade envNoSwapTx keysW12 tradeSOL).caughtMsg =
        some "Failed to get swap transaction from Jupiter API" :=
  c6_no_payload_amended envNoSwapTx keysW12 tradeSOL 9 "pk1"
    (by decide) (by decide) rfl

/-- C7: counterexample.  The claim says a record with an empty core field
makes the load reject the whole batch so that no trade is attempted.  The
loader of `trade.ts` has no validation path at all: a sheet whose data row
has an empty `wallet_address` loads into a one-record batch carrying the
empty field, and the batch loop still attempts that trade (it fails
per-trade at the credential lookup instead). -/
theorem c7_no_validation_counterexample :
    loadTradeInfoList emptyWalletCSV =
        [{ wallet_address := "", coin_amount := "1.5",
           slippage_in_pct := "0.5", from_token_address := "SOL",
           to_token_address := "USDC" }] ∧
      (runMain (.ok keysW12) (fun _ => envConfirmFirst)
          (loadTradeInfoList emptyWalletCSV)).outs.length = 1 ∧
      (runMain (.ok keysW12) (fun _ => envConfirmFirst)
          (loadTradeInfoList emptyWalletCSV)).caughtLogs =
        ["No private key found for wallet: "] := by
  decide

/-- C7 (amended): loading performs no core-field validation — it yields one
record per nonempty data line, a missing column loads as the empty string,
and the batch loop attempts every loaded record regardless; an empty core
field surfaces as that trade's own per-trade failure, not as a batch
rejection. -/
theorem c7_loader_amended :
    (∀ content : String,
      (loadTradeInfoList content).length =
        ((jsSplit '\n' content).filter (fun l => l ≠ "")).length - 1) ∧
      (∀ headers values, rawLookup headers values "wallet_address" = none →
        (toTradeInfo headers values).wallet_address = "") ∧
      ∀ (keys : List (String × String)) (envs : Nat → TradeEnv)
        (trades : List TradeInfo),
        (runMain (.ok keys) envs trades).outs.length = trades.length := by
  refine ⟨?_, ?_, ?_⟩
  · intro content
    unfold loadTradeInfoList
    rcases h : (jsSplit '\n' content).filter (fun l => l ≠ "") with _ | ⟨hl, dls⟩
    · simp
    · simp
  · intro headers values h
    simp [toTradeInfo, h, cleanValue]
  · intro keys envs trades
    simpa [runMain] using
      mainGo_outs_length envs keys trades.length 0 trades (by omega)

/-- Witness for C7 (amended): the amended loader facts at the concrete
empty-wallet sheet, a concrete missing column, and a concrete one-record
batch. -/
theorem c7_loader_amended_witness :
    (loadTradeInfoList emptyWalletCSV).length =
        ((jsSplit '\n' emptyWalletCSV).filter (fun l => l ≠ "")).length - 1 ∧
      (toTradeInfo ["coin_amount"] ["1.5"]).wallet_address = "" ∧
      (runMain (.ok keysW12) (fun _ => envConfirmFirst) [tradeSOL]).outs.length = 1 := by
  refine ⟨c7_loader_amended.1 emptyWalletCSV,
    c7_loader_amended.2.1 ["coin_amount"] ["1.5"] (by decide), ?_⟩
  have h := c7_loader_amended.2.2 keysW12 (fun _ => envConfirmFirst) [tradeSOL]
  simpa using h

/-- C8: counterexample.  The claim says the loader fails with the
no-trade-data error when the selected file has no data rows.  A directory
holding one confirmation sheet whose content is only a header line loads
successfully as an empty batch — startup does not raise
`No trade data found` (nor any error) in that case. -/
theorem c8_header_only_counterexample :
    startupLoad ["trade_confirmation_sheet_20250101_000000.csv"]
        (fun _ =>
          "wallet_address,coin_amount,slippage_in_pct,from_token_address,to_token_address") =
      .ok (csvHeaders5, []) := by
  decide

/-- C8 (amended): the loader selects the lexicographically largest filename
among those starting with the fixed confirmation-sheet marker, and raises
`No trade data found` when no file matches or the selected file is empty;
a file holding only a header row loads as zero trades without error. -/
theorem c8_selection_amended (files : List String) (readFile : String → String) :
    (∀ f, getLatestTradeConfirmation files = some f →
      (jsStartsWith f confSheetMarker = true ∧ f ∈ files) ∧
        ∀ g ∈ files, jsStartsWith g confSheetMarker = true → jsLe g f = true) ∧
      ((∀ g ∈ files, jsStartsWith g confSheetMarker = false) →
        startupLoad files readFile = .error "No trade data found") ∧
      ∀ f, getLatestTradeConfirmation files = some f → readFile f = "" →
        startupLoad files readFile = .error "No trade data found" := by
  refine ⟨fun f hf => getLatest_isMax files f hf, ?_, ?_⟩
  · intro h
    unfold startupLoad
    rw [getLatest_none files h]
  · intro f hf hempty
    unfold startupLoad
    rw [hf]
    simp [hempty]

/-- Witness for C8 (amended): on a concrete directory listing the selected
sheet is the largest matching name and dominates the other sheet; a
directory with no matching file and a matching-but-empty file both raise
`No trade data found`. -/
theorem c8_selection_amended_witness :
    (jsStartsWith "trade_confirmation_sheet_20250102_000000.csv"
          confSheetMarker = true ∧
        "trade_confirmation_sheet_20250102_000000.csv" ∈ confFiles) ∧
      jsLe "trade_confirmation_sheet_20250101_000000.csv"
        "trade_confirmation_sheet_20250102_000000.csv" = true ∧
      startupLoad ["a.csv"] (fun _ => "x") = .error "No trade data found" ∧
      startupLoad confFiles (fun _ => "") = .error "No trade data found" := by
  have h := c8_selection_amended confFiles (fun _ => "")
  have hsel : getLatestTradeConfirmation confFiles =
      some "trade_confirmation_sheet_20250102_000000.csv" := by decide
  have hmax := h.1 "trade_confirmation_sheet_20250102_000000.csv" hsel
  have h2 := c8_selection_amended ["a.csv"] (fun _ => "x")
  refine ⟨hmax.1, ?_, ?_, ?_⟩
  · exact hmax.2 "trade_confirmation_sheet_20250101_000000.csv" (by decide)
      (by decide)
  · exact h2.2.1 (by decide)
  · exact h.2.2 "trade_confirmation_sheet_20250102_000000.csv" hsel rfl

/-- C9: when the secret store's required configuration is missing (a falsy
`SECRET_MANAGER_PROJECT_ID` or `SECRET_MANAGER_SECRET_NAME`) or the store
fetch itself errors, building the wallet-key map throws; and whenever the
wallet-key map construction errors, the run exits with status 1 having
entered zero loop iterations and written nothing — no trade is attempted. -/
theorem c9_secret_store_fatal (env : String → Option String)
    (store : Except String (List (String × String)))
    (envs : Nat → TradeEnv) (trades : List TradeInfo) :
    ((jsFalsy (env "SECRET_MANAGER_PROJECT_ID") = true ∨
        jsFalsy (env "SECRET_MANAGER_SECRET_NAME") = true) →
      ∃ e, createWalletKeysMap env store = .error e) ∧
      (∀ e, store = .error e → validateEnvironment env = .ok () →
        createWalletKeysMap env store = .error e) ∧
      ∀ e, createWalletKeysMap env store = .error e →
        runMain (createWalletKeysMap env store) envs trades =
          ⟨1, [], trades, [], [], []⟩ := by
  refine ⟨?_, ?_, ?_⟩
  · intro h
    rcases validateEnvironment_missing env h with ⟨e, he⟩
    exact ⟨e, createWalletKeysMap_env_error env store e he⟩
  · intro e he hok
    subst he
    exact createWalletKeysMap_store_error env e hok
  · intro e he
    rw [he]
    exact runMain_keys_error e envs trades

/-- Witness for C9: with every environment variable unset, the wallet-key
build fails and the run over a one-trade batch exits with status 1 and zero
outcomes. -/
theorem c9_secret_store_fatal_witness :
    runMain (createWalletKeysMap envEmptyVars (.ok []))
        (fun _ => envConfirmFirst) [tradeSOL] =
      ⟨1, [], [tradeSOL], [], [], []⟩ := by
  have h := c9_secret_store_fatal envEmptyVars (.ok [])
    (fun _ => envConfirmFirst) [tradeSOL]
  rcases h.1 (Or.inl (by decide)) with ⟨e, he⟩
  exact h.2.2 e he

/-- C10: counterexample.  The claim says every result-journal write in one
run computes the same output path because the timestamp comes from the
confirmation-sheet filename.  The trade-loop call sites pass no timestamp,
and `getTimestamp` is then invoked without a confirmation path, so the
timestamp is the formatted current time: two writes one formatted second
apart compute different paths (a fresh file per write, no overwrite). -/
theorem c10_write_path_counterexample :
    tradeLoopWritePath "results" "20240101_120000" ≠
        tradeLoopWritePath "results" "20240101_120001" ∧
      tradeLoopWritePath "results" "20240101_120000" =
        "results/trade_results_20240101_120000.csv" ∧
      getTimestamp true none "20240101_120000" = "20240101_120000" := by
  decide

/-- C10 (amended): the trade-loop write path is
`<dir>/trade_results_<now>.csv` built from the formatted current time — two
writes share a path exactly when their formatted times agree — while only a
caller passing an explicit nonempty timestamp gets a time-independent
path. -/
theorem c10_write_path_amended (dir n1 n2 : String) :
    tradeLoopWritePath dir n1 = dir ++ "/trade_results_" ++ n1 ++ ".csv" ∧
      (tradeLoopWritePath dir n1 = tradeLoopWritePath dir n2 ↔ n1 = n2) ∧
      ∀ ts, ts ≠ "" →
        resultsPathOf dir (some ts) n1 =
          dir ++ "/trade_results_" ++ ts ++ ".csv" := by
  refine ⟨tradeLoopWritePath_eq dir n1, tradeLoopWritePath_inj dir n1 n2, ?_⟩
  intro ts hts
  unfold resultsPathOf
  simp [hts, getTimestamp]

/-- Witness for C10 (amended): the amended path facts at concrete directory,
times and timestamp. -/
theorem c10_write_path_amended_witness :
    tradeLoopWritePath "results" "NOW1" =
        "results" ++ "/trade_results_" ++ "NOW1" ++ ".csv" ∧
      resultsPathOf "results" (some "20240101_000000") "NOW1" =
        "results" ++ "/trade_results_" ++ "20240101_000000" ++ ".csv" := by
  have h := c10_write_path_amended "results" "NOW1" "NOW2"
  exact ⟨h.1, h.2.2 "20240101_000000" (by decide)⟩
